import Mathlib

/-!
Verification of the order-watcher trigger engine of the pancaketrade repository.

The definitions below are a shallow embedding of
`src/pancaketrade/watchers/order.py`.  Python `Decimal` prices are modelled as
rationals (`ℚ`); the optional trailing-stop percentage is an `Option ℤ` and its
Python truthiness (`None` and `0` are falsy) is made explicit.  A call to
`OrderWatcher.price_update` is modelled as a pure step returning the new
watcher state together with a flag recording whether `close` was called on
that sample (i.e. the order triggered and execution was handed off).
-/

namespace PancakeTrade

/-- Order direction: `buy` (BNB for tokens) or `sell` (tokens for BNB),
mirroring the `type` field of the order record. -/
inductive OrderType where
  | buy
  | sell
deriving DecidableEq, Repr

/-- State of an `OrderWatcher` relevant to price updates: the configuration
fields set in `__init__` from the order record, and the mutable run-state
(`active`, `finished`, `min_price`, `max_price`). -/
structure OrderWatcher where
  otype : OrderType
  limit_price : Option ℚ
  above : Bool
  trailing_stop : Option ℤ
  active : Bool
  finished : Bool
  min_price : Option ℚ
  max_price : Option ℚ
deriving DecidableEq, Repr

/-- The watcher state right after `OrderWatcher.__init__`: active, not
finished, no tracked extreme yet. -/
def mkOrder (t : OrderType) (limit : Option ℚ) (above : Bool) (ts : Option ℤ) :
    OrderWatcher :=
  ⟨t, limit, above, ts, true, false, none, none⟩

/-- Python truthiness of the optional trailing-stop percent:
`None` and `0` are falsy, any other integer is truthy. -/
def tsTruthy : Option ℤ → Bool
  | none => false
  | some t => t ≠ 0

/-- Outcome of one `price_update` call: the new watcher state, and whether
`close` was called on this sample (trigger fired, execution handed off). -/
structure StepResult where
  st : OrderWatcher
  triggered : Bool
deriving DecidableEq, Repr

/-- `OrderWatcher.close` as far as the watcher state is concerned: set
`active` to `False` before handing execution off to a thread. -/
def close (w : OrderWatcher) : OrderWatcher := { w with active := false }

/-- The trailing-stop tracking block of `price_update_buy` (lines 99-112):
activate tracking if `min_price` is unset, then either move the tracked
minimum down, or trigger when the rise from the tracked minimum strictly
exceeds the trailing-stop percent. -/
def trackBuy (w : OrderWatcher) (buy_price : ℚ) : StepResult :=
  let w1 := if w.min_price = none then { w with min_price := some buy_price } else w
  let m := w1.min_price.getD buy_price
  if buy_price < m then ⟨{ w1 with min_price := some buy_price }, false⟩
  else if (buy_price / m - 1) * 100 > ((w.trailing_stop.getD 0 : ℤ) : ℚ) then
    ⟨close w1, true⟩
  else ⟨w1, false⟩

/-- `OrderWatcher.price_update_buy`: skip a zero quote, otherwise use the
configured limit price (or the current quote when none is configured) and
dispatch on the trailing-stop / comparison configuration. -/
def price_update_buy (w : OrderWatcher) (buy_price : ℚ) : StepResult :=
  if buy_price = 0 then ⟨w, false⟩
  else
    let limit_price := w.limit_price.getD buy_price
    if w.trailing_stop = none ∧ w.above = false ∧ buy_price ≤ limit_price then
      ⟨close w, true⟩
    else if tsTruthy w.trailing_stop ∧ w.above = false ∧
        (buy_price ≤ limit_price ∨ ¬ w.min_price = none) then
      trackBuy w buy_price
    else ⟨w, false⟩

/-- The trailing-stop tracking block of `price_update_sell` (lines 130-143):
activate tracking if `max_price` is unset, then either move the tracked
maximum up, or trigger when the drop from the tracked maximum strictly
exceeds the trailing-stop percent. -/
def trackSell (w : OrderWatcher) (sell_price : ℚ) : StepResult :=
  let w1 := if w.max_price = none then { w with max_price := some sell_price } else w
  let m := w1.max_price.getD sell_price
  if sell_price > m then ⟨{ w1 with max_price := some sell_price }, false⟩
  else if (1 - sell_price / m) * 100 > ((w.trailing_stop.getD 0 : ℤ) : ℚ) then
    ⟨close w1, true⟩
  else ⟨w1, false⟩

/-- `OrderWatcher.price_update_sell`: skip a zero quote, otherwise use the
configured limit price (or the current quote when none is configured) and
dispatch on the trailing-stop / comparison configuration. -/
def price_update_sell (w : OrderWatcher) (sell_price : ℚ) : StepResult :=
  if sell_price = 0 then ⟨w, false⟩
  else
    let limit_price := w.limit_price.getD sell_price
    if w.trailing_stop = none ∧ w.above = false ∧ sell_price ≤ limit_price then
      ⟨close w, true⟩
    else if w.trailing_stop = none ∧ w.above = true ∧ sell_price ≥ limit_price then
      ⟨close w, true⟩
    else if tsTruthy w.trailing_stop ∧ w.above = true ∧
        (sell_price ≥ limit_price ∨ ¬ w.max_price = none) then
      trackSell w sell_price
    else ⟨w, false⟩

/-- `OrderWatcher.price_update`: no-op when the order is not active,
otherwise use the buy-side quote for buy orders and the sell-side quote for
sell orders. -/
def price_update (w : OrderWatcher) (sell_price buy_price : ℚ) : StepResult :=
  if w.active = false then ⟨w, false⟩
  else if w.otype = OrderType.buy then price_update_buy w buy_price
  else price_update_sell w sell_price

/-- Feed a sequence of price samples (sell quote, buy quote) to the watcher;
return the final state and the per-sample trigger flags. -/
def runSamples (w : OrderWatcher) : List (ℚ × ℚ) → OrderWatcher × List Bool
  | [] => (w, [])
  | p :: ps =>
    let r := price_update w p.1 p.2
    let rest := runSamples r.st ps
    (rest.1, r.triggered :: rest.2)

/-- `OrderWatcher.get_human_amount`: the wei amount scaled down by the token
decimals for a sell order and by 18 (BNB decimals) for a buy order. -/
def get_human_amount (amount : ℕ) (decimals : ℕ) (t : OrderType) : ℚ :=
  (amount : ℚ) / 10 ^ (if t = OrderType.sell then decimals else 18)

/-- Observable outcome of one execution (`OrderWatcher.buy` or
`OrderWatcher.sell`): whether a failure notification was emitted, the final
`finished` flag, whether the order record was deleted from the store, the
effective buy price of the token after the call, and the realized effective price
computed from the swap result (`none` when the swap failed). -/
structure ExecResult where
  failureNotified : Bool
  finished : Bool
  orderDeleted : Bool
  effective_buy_price : Option ℚ
  effective_price : Option ℚ
deriving DecidableEq, Repr

/-- `OrderWatcher.buy` (lines 167-243): on swap failure notify and return
without deleting the order or marking it finished; on success compute the
realized effective price and fold it into the volume-weighted
effective buy price, then delete the order record and mark finished. -/
def buyExec (amount : ℕ) (balance_before : ℚ) (buy_price_before : Option ℚ)
    (res : Bool) (tokens_out : ℚ) : ExecResult :=
  if res = false then
    ⟨true, false, false, buy_price_before, none⟩
  else
    let effective_price := get_human_amount amount 18 OrderType.buy / tokens_out
    let newPrice :=
      match buy_price_before with
      | some p =>
        (balance_before * p + tokens_out * effective_price) /
          (balance_before + tokens_out)
      | none => effective_price
    ⟨false, true, true, some newPrice, some effective_price⟩

/-- `OrderWatcher.sell` (lines 245-285): on swap failure notify and return
without deleting the order or marking it finished; on success compute the
realized effective price, delete the order record and mark finished.  The
effective buy price of the token is never touched by a sell. -/
def sellExec (amount : ℕ) (decimals : ℕ) (buy_price_before : Option ℚ)
    (res : Bool) (bnb_out : ℚ) : ExecResult :=
  if res = false then
    ⟨true, false, false, buy_price_before, none⟩
  else
    let effective_price := bnb_out / get_human_amount amount decimals OrderType.sell
    ⟨false, true, true, buy_price_before, some effective_price⟩

/-- Trigger pattern described by the (amended) stop-loss property: the first
sample whose sell quote is non-zero and at most the limit fires, every other
sample does not. -/
def stopLossFlags (L : ℚ) : List ℚ → List Bool
  | [] => []
  | p :: ps =>
    if p ≠ 0 ∧ p ≤ L then true :: ps.map (fun _ => false)
    else false :: stopLossFlags L ps

/-! Helper lemmas about the embedded step function. -/

lemma price_update_not_active (w : OrderWatcher) (sp bp : ℚ) (h : w.active = false) :
    price_update w sp bp = ⟨w, false⟩ := by
  simp [price_update, h]

lemma runSamples_not_active (w : OrderWatcher) (samples : List (ℚ × ℚ))
    (h : w.active = false) :
    runSamples w samples = (w, samples.map fun _ => false) := by
  induction samples with
  | nil => rfl
  | cons p ps ih => simp [runSamples, price_update_not_active w p.1 p.2 h, ih]

lemma trackBuy_triggered_inactive (w : OrderWatcher) (p : ℚ)
    (h : (trackBuy w p).triggered = true) : (trackBuy w p).st.active = false := by
  simp only [trackBuy, close] at h ⊢
  split_ifs at h ⊢ <;> simp_all

lemma trackSell_triggered_inactive (w : OrderWatcher) (p : ℚ)
    (h : (trackSell w p).triggered = true) : (trackSell w p).st.active = false := by
  simp only [trackSell, close] at h ⊢
  split_ifs at h ⊢ <;> simp_all

lemma price_update_buy_triggered_inactive (w : OrderWatcher) (p : ℚ)
    (h : (price_update_buy w p).triggered = true) :
    (price_update_buy w p).st.active = false := by
  simp only [price_update_buy] at h ⊢
  split_ifs at h ⊢ <;>
    first
      | exact trackBuy_triggered_inactive w p h
      | simp_all [close]

lemma price_update_sell_triggered_inactive (w : OrderWatcher) (p : ℚ)
    (h : (price_update_sell w p).triggered = true) :
    (price_update_sell w p).st.active = false := by
  simp only [price_update_sell] at h ⊢
  split_ifs at h ⊢ <;>
    first
      | exact trackSell_triggered_inactive w p h
      | simp_all [close]

lemma price_update_triggered_inactive (w : OrderWatcher) (sp bp : ℚ)
    (h : (price_update w sp bp).triggered = true) :
    (price_update w sp bp).st.active = false := by
  simp only [price_update] at h ⊢
  split_ifs at h ⊢ <;>
    first
      | exact price_update_buy_triggered_inactive w bp h
      | exact price_update_sell_triggered_inactive w sp h

lemma runSamples_count_le_one (samples : List (ℚ × ℚ)) :
    ∀ w : OrderWatcher, ((runSamples w samples).2.count true) ≤ 1 := by
  induction samples with
  | nil => intro w; simp [runSamples]
  | cons p ps ih =>
    intro w
    by_cases ht : (price_update w p.1 p.2).triggered = true
    · have hin := price_update_triggered_inactive w p.1 p.2 ht
      simp [runSamples, ht, runSamples_not_active _ ps hin, List.count_cons,
        List.count_eq_zero]
    · have ht' : (price_update w p.1 p.2).triggered = false := by
        simpa using ht
      simpa [runSamples, ht', List.count_cons] using ih (price_update w p.1 p.2).st

lemma trackBuy_min (w : OrderWatcher) (p : ℚ) :
    (trackBuy w p).st.min_price = some (min (w.min_price.getD p) p) := by
  rcases hm : w.min_price with _ | M <;>
    simp only [trackBuy, close, hm] <;> split_ifs <;>
    simp_all [min_def, le_of_lt, le_of_not_lt]

lemma trackBuy_max (w : OrderWatcher) (p : ℚ) :
    (trackBuy w p).st.max_price = w.max_price := by
  rcases hm : w.min_price with _ | M <;>
    simp only [trackBuy, close, hm] <;> split_ifs <;> simp_all

lemma trackSell_max (w : OrderWatcher) (p : ℚ) :
    (trackSell w p).st.max_price = some (max (w.max_price.getD p) p) := by
  rcases hm : w.max_price with _ | M <;>
    simp only [trackSell, close, hm] <;> split_ifs <;>
    simp_all [max_def, le_of_lt, le_of_not_lt]

lemma trackSell_min (w : OrderWatcher) (p : ℚ) :
    (trackSell w p).st.min_price = w.min_price := by
  rcases hm : w.max_price with _ | M <;>
    simp only [trackSell, close, hm] <;> split_ifs <;> simp_all

lemma step_max_mono (w : OrderWatcher) (sp bp : ℚ) (M : ℚ) (h : w.max_price = some M) :
    ∃ N, (price_update w sp bp).st.max_price = some N ∧ M ≤ N := by
  simp only [price_update, price_update_buy, price_update_sell, close]
  split_ifs <;>
    first
      | exact ⟨M, h, le_refl M⟩
      | (refine ⟨max M sp, ?_, le_max_left M sp⟩; rw [trackSell_max, h]; rfl)
      | (refine ⟨M, ?_, le_refl M⟩; rw [trackBuy_max, h])

lemma step_min_anti (w : OrderWatcher) (sp bp : ℚ) (M : ℚ) (h : w.min_price = some M) :
    ∃ N, (price_update w sp bp).st.min_price = some N ∧ N ≤ M := by
  simp only [price_update, price_update_buy, price_update_sell, close]
  split_ifs <;>
    first
      | exact ⟨M, h, le_refl M⟩
      | (refine ⟨min M bp, ?_, min_le_left M bp⟩; rw [trackBuy_min, h]; rfl)
      | (refine ⟨M, ?_, le_refl M⟩; rw [trackSell_min, h])

lemma runSamples_max_mono (samples : List (ℚ × ℚ)) :
    ∀ (w : OrderWatcher) (M : ℚ), w.max_price = some M →
      ∃ N, (runSamples w samples).1.max_price = some N ∧ M ≤ N := by
  induction samples with
  | nil => exact fun w M h => ⟨M, h, le_refl M⟩
  | cons p ps ih =>
    intro w M h
    obtain ⟨N1, hN1, hMN1⟩ := step_max_mono w p.1 p.2 M h
    obtain ⟨N, hN, hN1N⟩ := ih (price_update w p.1 p.2).st N1 hN1
    exact ⟨N, by simpa [runSamples] using hN, le_trans hMN1 hN1N⟩

lemma runSamples_min_anti (samples : List (ℚ × ℚ)) :
    ∀ (w : OrderWatcher) (M : ℚ), w.min_price = some M →
      ∃ N, (runSamples w samples).1.min_price = some N ∧ N ≤ M := by
  induction samples with
  | nil => exact fun w M h => ⟨M, h, le_refl M⟩
  | cons p ps ih =>
    intro w M h
    obtain ⟨N1, hN1, hMN1⟩ := step_min_anti w p.1 p.2 M h
    obtain ⟨N, hN, hN1N⟩ := ih (price_update w p.1 p.2).st N1 hN1
    exact ⟨N, by simpa [runSamples] using hN, le_trans hN1N hMN1⟩

lemma price_update_buy_above (w : OrderWatcher) (p : ℚ) (habove : w.above = true) :
    price_update_buy w p = ⟨w, false⟩ := by
  simp [price_update_buy, habove]

lemma price_update_sell_below_ts (w : OrderWatcher) (p : ℚ) (habove : w.above = false)
    (hts : ¬ w.trailing_stop = none) : price_update_sell w p = ⟨w, false⟩ := by
  simp [price_update_sell, habove, hts]

lemma trackSell_eq (w : OrderWatcher) (sp M : ℚ) (hM : w.max_price = some M) :
    trackSell w sp =
      if sp > M then ⟨{ w with max_price := some sp }, false⟩
      else if (1 - sp / M) * 100 > ((w.trailing_stop.getD 0 : ℤ) : ℚ) then
        ⟨close w, true⟩
      else ⟨w, false⟩ := by
  simp [trackSell, hM]

lemma trackBuy_eq (w : OrderWatcher) (bp M : ℚ) (hM : w.min_price = some M) :
    trackBuy w bp =
      if bp < M then ⟨{ w with min_price := some bp }, false⟩
      else if (bp / M - 1) * 100 > ((w.trailing_stop.getD 0 : ℤ) : ℚ) then
        ⟨close w, true⟩
      else ⟨w, false⟩ := by
  simp [trackBuy, hM]

lemma price_update_sell_tracking (w : OrderWatcher) (sp : ℚ) (T : ℤ)
    (hts : w.trailing_stop = some T) (hT : T ≠ 0) (habove : w.above = true)
    (hsp : ¬ sp = 0)
    (hcond : sp ≥ w.limit_price.getD sp ∨ ¬ w.max_price = none) :
    price_update_sell w sp = trackSell w sp := by
  simp [price_update_sell, hsp, hts, habove, tsTruthy, hT, hcond]

lemma price_update_buy_tracking (w : OrderWatcher) (bp : ℚ) (T : ℤ)
    (hts : w.trailing_stop = some T) (hT : T ≠ 0) (habove : w.above = false)
    (hbp : ¬ bp = 0)
    (hcond : bp ≤ w.limit_price.getD bp ∨ ¬ w.min_price = none) :
    price_update_buy w bp = trackBuy w bp := by
  simp [price_update_buy, hbp, hts, habove, tsTruthy, hT, hcond]

/-! Claim theorems. -/

/-- C5: on a successful buy swap the realized effective price is the
requested base-currency amount divided by the tokens received, and the
effective buy price of the token becomes the volume-weighted average of the
previous balance at the previous effective price and the received tokens at
the realized price; with no previous effective price it becomes simply the
realized price. -/
theorem buy_success_effective_price (amount : ℕ) (balance_before : ℚ)
    (tokens_out : ℚ) (h : 0 < tokens_out) :
    (buyExec amount balance_before none true tokens_out).effective_price
        = some ((amount : ℚ) / 10 ^ 18 / tokens_out)
    ∧ (buyExec amount balance_before none true tokens_out).effective_buy_price
        = some ((amount : ℚ) / 10 ^ 18 / tokens_out)
    ∧ ∀ prev : ℚ,
        (buyExec amount balance_before (some prev) true tokens_out).effective_buy_price
          = some ((balance_before * prev +
                tokens_out * ((amount : ℚ) / 10 ^ 18 / tokens_out)) /
              (balance_before + tokens_out)) := by
  refine ⟨?_, ?_, fun prev => ?_⟩ <;> simp [buyExec, get_human_amount]

/-- Witness for `buy_success_effective_price` at a concrete successful buy. -/
theorem buy_success_effective_price_witness :
    (buyExec (2 * 10 ^ 18) 3 (some 1) true 1).effective_buy_price
      = some ((3 * 1 + 1 * (((2 * 10 ^ 18 : ℕ) : ℚ) / 10 ^ 18 / 1)) / (3 + 1)) :=
  (buy_success_effective_price (2 * 10 ^ 18) 3 1 (by norm_num)).2.2 1

/-- C6: a failed swap execution (buy or sell) emits a failure notification,
leaves `finished = false`, does not delete the order record, and leaves the
effective buy price of the token unchanged; `close` had already set
`active = false` before the handoff, and an inactive order processes no
further price samples. -/
theorem failed_execution_state :
    (∀ (amount : ℕ) (balance_before : ℚ) (prev : Option ℚ) (tokens_out : ℚ),
        buyExec amount balance_before prev false tokens_out
          = ⟨true, false, false, prev, none⟩)
    ∧ (∀ (amount decimals : ℕ) (prev : Option ℚ) (bnb_out : ℚ),
        sellExec amount decimals prev false bnb_out
          = ⟨true, false, false, prev, none⟩)
    ∧ (∀ w : OrderWatcher, (close w).active = false)
    ∧ (∀ (w : OrderWatcher) (sp bp : ℚ), w.active = false →
        price_update w sp bp = ⟨w, false⟩) :=
  ⟨fun _ _ _ _ => rfl, fun _ _ _ _ => rfl, fun _ => rfl, price_update_not_active⟩

/-- Witness for `failed_execution_state`: an inactive order ignores a
price sample. -/
theorem failed_execution_state_witness :
    price_update ⟨OrderType.buy, none, false, none, false, false, none, none⟩ 1 1
      = ⟨⟨OrderType.buy, none, false, none, false, false, none, none⟩, false⟩ :=
  failed_execution_state.2.2.2 _ 1 1 rfl

/-- C7: an inactive order is never changed by a price sample and never
starts an execution; a trigger always leaves the order inactive; therefore
at most one execution is ever started per order over any sample sequence. -/
theorem at_most_one_execution :
    (∀ (w : OrderWatcher) (sp bp : ℚ), w.active = false →
        price_update w sp bp = ⟨w, false⟩)
    ∧ (∀ (w : OrderWatcher) (sp bp : ℚ), (price_update w sp bp).triggered = true →
        (price_update w sp bp).st.active = false)
    ∧ (∀ (w : OrderWatcher) (samples : List (ℚ × ℚ)),
        (runSamples w samples).2.count true ≤ 1) :=
  ⟨price_update_not_active, price_update_triggered_inactive,
    fun w samples => runSamples_count_le_one samples w⟩

/-- Witness for `at_most_one_execution` at a concrete inactive order. -/
theorem at_most_one_execution_witness :
    price_update ⟨OrderType.sell, some 2, false, none, false, true, none, none⟩ 1 1
      = ⟨⟨OrderType.sell, some 2, false, none, false, true, none, none⟩, false⟩ :=
  at_most_one_execution.1 _ 1 1 rfl

/-- C8: while an order is active, a sample whose relevant quote (buy quote
for buy orders, sell quote for sell orders) is zero is skipped: the state is
completely unchanged and no execution is started. -/
theorem zero_quote_skipped (w : OrderWatcher) (sp bp : ℚ) (hact : w.active = true)
    (hq : (if w.otype = OrderType.buy then bp else sp) = 0) :
    price_update w sp bp = ⟨w, false⟩ := by
  cases ht : w.otype <;>
    simp_all [price_update, price_update_buy, price_update_sell]

/-- Witness for `zero_quote_skipped` at a concrete stop-loss order and a
zero sell quote. -/
theorem zero_quote_skipped_witness :
    price_update (mkOrder OrderType.sell (some 2) false none) 0 1
      = ⟨mkOrder OrderType.sell (some 2) false none, false⟩ :=
  zero_quote_skipped _ 0 1 rfl (by decide)

/-- C9: a buy-direction order with comparison mode above never reacts to any
price sample: every `price_update` call returns the state unchanged with no
trigger, for any limit price or trailing-stop configuration, and hence every
sample sequence is a no-op. -/
theorem buy_above_noop (w : OrderWatcher) (htype : w.otype = OrderType.buy)
    (habove : w.above = true) :
    (∀ sp bp : ℚ, price_update w sp bp = ⟨w, false⟩)
    ∧ ∀ samples : List (ℚ × ℚ),
        runSamples w samples = (w, samples.map fun _ => false) := by
  have hstep : ∀ sp bp : ℚ, price_update w sp bp = ⟨w, false⟩ := by
    intro sp bp
    by_cases hact : w.active = true
    · simp [price_update, hact, htype, price_update_buy_above w bp habove]
    · exact price_update_not_active w sp bp (by simpa using hact)
  refine ⟨hstep, fun samples => ?_⟩
  induction samples with
  | nil => rfl
  | cons p ps ih => simp [runSamples, hstep p.1 p.2, ih]

/-- Witness for `buy_above_noop` at a concrete buy/above order. -/
theorem buy_above_noop_witness :
    price_update (mkOrder OrderType.buy (some 1) true (some 5)) 1 1
      = ⟨mkOrder OrderType.buy (some 1) true (some 5), false⟩ :=
  (buy_above_noop (mkOrder OrderType.buy (some 1) true (some 5)) rfl rfl).1 1 1

/-- C10: a sell-direction order with comparison mode below and a trailing
stop configured never reacts to any price sample: the state, including the
tracked maximum, is never changed, no trigger ever fires, and every sample
sequence is a no-op. -/
theorem sell_below_trailing_noop (w : OrderWatcher)
    (htype : w.otype = OrderType.sell) (habove : w.above = false)
    (hts : ¬ w.trailing_stop = none) :
    (∀ sp bp : ℚ, price_update w sp bp = ⟨w, false⟩)
    ∧ ∀ samples : List (ℚ × ℚ),
        runSamples w samples = (w, samples.map fun _ => false) := by
  have hstep : ∀ sp bp : ℚ, price_update w sp bp = ⟨w, false⟩ := by
    intro sp bp
    by_cases hact : w.active = true
    · simp [price_update, hact, htype, price_update_sell_below_ts w sp habove hts]
    · exact price_update_not_active w sp bp (by simpa using hact)
  refine ⟨hstep, fun samples => ?_⟩
  induction samples with
  | nil => rfl
  | cons p ps ih => simp [runSamples, hstep p.1 p.2, ih]

/-- Witness for `sell_below_trailing_noop` at a concrete sell/below order
with a trailing stop. -/
theorem sell_below_trailing_noop_witness :
    price_update (mkOrder OrderType.sell (some 1) false (some 10)) 1 1
      = ⟨mkOrder OrderType.sell (some 1) false (some 10), false⟩ :=
  (sell_below_trailing_noop (mkOrder OrderType.sell (some 1) false (some 10))
    rfl rfl (by decide)).1 1 1

/-- C1 counterexample: the claim fails as stated.  A buy order with
comparison mode above and no limit price ignores its first non-zero sample
(nothing triggers, the order stays active), and a sell/above order with a
trailing stop and no limit price only activates tracking on its first
non-zero sample instead of triggering. -/
theorem no_limit_not_always_immediate :
    ((price_update (mkOrder OrderType.buy none true none) 1 1).triggered = false
      ∧ (price_update (mkOrder OrderType.buy none true none) 1 1).st.active = true)
    ∧ (price_update (mkOrder OrderType.sell none true (some 10)) 1 1).triggered = false
      ∧ (price_update (mkOrder OrderType.sell none true (some 10)) 1 1).st.active
          = true := by
  simp [price_update, price_update_buy, price_update_sell, trackSell, mkOrder,
    tsTruthy, close]
  norm_num

/-- C1 amended: for every active order with no limit price, no trailing stop
configured, and a supported direction/mode combination (buy/below,
sell/below, or sell/above), a sample whose relevant quote is non-zero
triggers the order on that sample: the trigger fires and `active` becomes
false with execution handed off. -/
theorem no_limit_first_nonzero_sample_triggers (w : OrderWatcher) (sp bp : ℚ)
    (hact : w.active = true) (hlim : w.limit_price = none)
    (hts : w.trailing_stop = none)
    (hsupp : w.otype = OrderType.buy → w.above = false)
    (hq : (if w.otype = OrderType.buy then bp else sp) ≠ 0) :
    (price_update w sp bp).triggered = true
      ∧ (price_update w sp bp).st.active = false := by
  cases ht : w.otype with
  | buy =>
    have hab := hsupp ht
    have hbp : ¬ bp = 0 := by simpa [ht] using hq
    simp [price_update, hact, ht, price_update_buy, hbp, hlim, hts, hab, close]
  | sell =>
    have hsp : ¬ sp = 0 := by simpa [ht] using hq
    cases hab : w.above <;>
      simp [price_update, hact, ht, price_update_sell, hsp, hlim, hts, hab, close]

/-- Witness for `no_limit_first_nonzero_sample_triggers` at a concrete
market stop-loss order. -/
theorem no_limit_first_nonzero_sample_triggers_witness :
    (price_update (mkOrder OrderType.sell none false none) 1 1).triggered = true
      ∧ (price_update (mkOrder OrderType.sell none false none) 1 1).st.active
          = false :=
  no_limit_first_nonzero_sample_triggers (mkOrder OrderType.sell none false none)
    1 1 rfl rfl rfl (fun h => absurd h (by decide)) (by decide)

/-- C4 counterexample: the claim fails as stated when the sell quote of a sample
is zero.  For a stop-loss order with limit 2, the first sample with quote
0 satisfies quote ≤ limit, yet the order does not trigger on it and stays
active (the zero quote is skipped). -/
theorem stop_loss_zero_quote_not_trigger :
    ((0 : ℚ) ≤ 2)
    ∧ (runSamples (mkOrder OrderType.sell (some 2) false none) [(0, 0)]).2 = [false]
    ∧ (runSamples (mkOrder OrderType.sell (some 2) false none) [(0, 0)]).1.active
        = true := by
  decide

/-- One `price_update` step of a freshly created stop-loss order: it
triggers exactly when the sell quote is non-zero and at most the limit, and
is otherwise the identity. -/
lemma stop_loss_step (L p bp : ℚ) :
    price_update (mkOrder OrderType.sell (some L) false none) p bp =
      if p ≠ 0 ∧ p ≤ L then ⟨close (mkOrder OrderType.sell (some L) false none), true⟩
      else ⟨mkOrder OrderType.sell (some L) false none, false⟩ := by
  by_cases hp : p = 0
  · simp [price_update, price_update_sell, mkOrder, hp]
  · by_cases hL : p ≤ L <;>
      simp [price_update, price_update_sell, mkOrder, tsTruthy, hp, hL]

/-- C4 amended: a sell/below (stop-loss) order with limit L triggers exactly
on the first sample whose sell quote is non-zero and at most L, and on no
other sample: the per-sample trigger flags of any sample sequence are
exactly the `stopLossFlags` pattern. -/
theorem stop_loss_triggers_at_first_nonzero_leq_limit (L : ℚ) (ps : List ℚ) :
    (runSamples (mkOrder OrderType.sell (some L) false none)
        (ps.map fun p => (p, p))).2 = stopLossFlags L ps := by
  induction ps with
  | nil => rfl
  | cons p ps ih =>
    by_cases hq : p ≠ 0 ∧ p ≤ L
    · have hin : (close (mkOrder OrderType.sell (some L) false none)).active = false :=
        rfl
      simp [runSamples, stop_loss_step L p p, hq, stopLossFlags,
        runSamples_not_active _ _ hin, List.map_map, Function.comp_def]
    · simp [runSamples, stop_loss_step L p p, hq, stopLossFlags, ih]

/-- C2: for an active sell/above order with trailing stop T > 0, the tracked
maximum is monotonically non-decreasing over any sample sequence; once
tracking is active (the maximum was set by an earlier sample), a non-zero
sample triggers the order if and only if the drop from the maximum as of
before the update of this sample strictly exceeds T percent; and no sample
triggers before tracking is active (in particular the activating sample
itself never triggers). -/
theorem sell_above_trailing_stop_spec (w : OrderWatcher) (T : ℤ) (sp bp : ℚ)
    (htype : w.otype = OrderType.sell) (habove : w.above = true)
    (hts : w.trailing_stop = some T) (hT : 0 < T) (hact : w.active = true) :
    (∀ (samples : List (ℚ × ℚ)) (M : ℚ), w.max_price = some M →
        ∃ N, (runSamples w samples).1.max_price = some N ∧ M ≤ N)
    ∧ (∀ M : ℚ, w.max_price = some M → 0 < M → sp ≠ 0 →
        ((price_update w sp bp).triggered = true ↔ (1 - sp / M) * 100 > (T : ℚ)))
    ∧ (w.max_price = none → (price_update w sp bp).triggered = false) := by
  have hT0 : T ≠ 0 := ne_of_gt hT
  have hTpos : (0 : ℚ) < (T : ℚ) := by exact_mod_cast hT
  have h1 : price_update w sp bp = price_update_sell w sp := by
    simp [price_update, hact, htype]
  refine ⟨fun samples M hM => runSamples_max_mono samples w M hM, ?_, ?_⟩
  · intro M hM hM0 hsp
    have h2 : price_update_sell w sp = trackSell w sp :=
      price_update_sell_tracking w sp T hts hT0 habove hsp (Or.inr (by simp [hM]))
    rw [h1, h2, trackSell_eq w sp M hM]
    simp only [hts, Option.getD_some, gt_iff_lt]
    split_ifs with hgt hdrop
    · refine iff_of_false (by simp) ?_
      rw [not_lt]
      have hdiv : 1 < sp / M := (one_lt_div hM0).mpr hgt
      nlinarith
    · exact iff_of_true rfl hdrop
    · exact iff_of_false (by simp) hdrop
  · intro hMn
    by_cases hsp : sp = 0
    · rw [h1]
      simp [price_update_sell, hsp]
    · rw [h1]
      by_cases hge : sp ≥ w.limit_price.getD sp
      · rw [price_update_sell_tracking w sp T hts hT0 habove hsp (Or.inl hge)]
        have hcond : ¬ ((1 - sp / sp) * 100 > ((T : ℤ) : ℚ)) := by
          rw [div_self hsp]
          rw [not_lt]
          nlinarith
        simp [trackSell, hMn, hts, hcond]
      · simp [price_update_sell, hsp, hts, habove, tsTruthy, hT0, hge, hMn]

/-- Witness for `sell_above_trailing_stop_spec`: a tracking sell/above order
with maximum 2 and trailing stop 10 triggers on quote 1 exactly because the
drop is 50 percent. -/
theorem sell_above_trailing_stop_spec_witness :
    (price_update
        { mkOrder OrderType.sell (some 1) true (some 10) with max_price := some 2 }
        1 0).triggered = true
      ↔ (1 - 1 / 2) * 100 > ((10 : ℤ) : ℚ) :=
  (sell_above_trailing_stop_spec
      { mkOrder OrderType.sell (some 1) true (some 10) with max_price := some 2 }
      10 1 0 rfl rfl rfl (by norm_num) rfl).2.1 2 rfl (by norm_num) (by norm_num)

/-- C3: for an active buy/below order with trailing stop T > 0, the tracked
minimum is monotonically non-increasing over any sample sequence; once
tracking is active, a non-zero sample triggers the order if and only if the
rise from the minimum as of before the update of this sample strictly exceeds T
percent; and a sample that lowers the tracked minimum never triggers on that
same sample — updating the extreme takes precedence over triggering. -/
theorem buy_below_trailing_stop_spec (w : OrderWatcher) (T : ℤ) (sp bp : ℚ)
    (htype : w.otype = OrderType.buy) (habove : w.above = false)
    (hts : w.trailing_stop = some T) (hT : 0 < T) (hact : w.active = true) :
    (∀ (samples : List (ℚ × ℚ)) (M : ℚ), w.min_price = some M →
        ∃ N, (runSamples w samples).1.min_price = some N ∧ N ≤ M)
    ∧ (∀ M : ℚ, w.min_price = some M → 0 < M →
        ((price_update w sp bp).triggered = true ↔ (bp / M - 1) * 100 > (T : ℚ)))
    ∧ (∀ M : ℚ, w.min_price = some M → bp ≠ 0 → bp < M →
        (price_update w sp bp).triggered = false
          ∧ (price_update w sp bp).st.min_price = some bp) := by
  have hT0 : T ≠ 0 := ne_of_gt hT
  have hTpos : (0 : ℚ) < (T : ℚ) := by exact_mod_cast hT
  have h1 : price_update w sp bp = price_update_buy w bp := by
    simp [price_update, hact, htype]
  refine ⟨fun samples M hM => runSamples_min_anti samples w M hM, ?_, ?_⟩
  · intro M hM hM0
    by_cases hbp : bp = 0
    · rw [h1]
      have hz : price_update_buy w bp = ⟨w, false⟩ := by simp [price_update_buy, hbp]
      rw [hz]
      refine iff_of_false (by simp) ?_
      rw [not_lt, hbp, zero_div]
      nlinarith
    · have h2 : price_update_buy w bp = trackBuy w bp :=
        price_update_buy_tracking w bp T hts hT0 habove hbp (Or.inr (by simp [hM]))
      rw [h1, h2, trackBuy_eq w bp M hM]
      simp only [hts, Option.getD_some, gt_iff_lt]
      split_ifs with hlt hrise
      · refine iff_of_false (by simp) ?_
        rw [not_lt]
        have hdiv : bp / M < 1 := (div_lt_one hM0).mpr hlt
        nlinarith
      · exact iff_of_true rfl hrise
      · exact iff_of_false (by simp) hrise
  · intro M hM hbp hlt
    have h2 : price_update_buy w bp = trackBuy w bp :=
      price_update_buy_tracking w bp T hts hT0 habove hbp (Or.inr (by simp [hM]))
    rw [h1, h2, trackBuy_eq w bp M hM]
    simp [hlt]

/-- Witness for `buy_below_trailing_stop_spec`: a tracking buy/below order
with minimum 2 and trailing stop 10 on quote 3 triggers exactly because the
rise is 50 percent. -/
theorem buy_below_trailing_stop_spec_witness :
    (price_update
        { mkOrder OrderType.buy (some 4) false (some 10) with min_price := some 2 }
        0 3).triggered = true
      ↔ (3 / 2 - 1) * 100 > ((10 : ℤ) : ℚ) :=
  (buy_below_trailing_stop_spec
      { mkOrder OrderType.buy (some 4) false (some 10) with min_price := some 2 }
      10 0 3 rfl rfl rfl (by norm_num) rfl).2.1 2 rfl (by norm_num)

end PancakeTrade
